import Mathlib

/-!
Shallow embedding of the resilient remote-data-fetch layer of `gpui_hn_app`
(`src/cache.rs` and `src/api/mod.rs`), and proofs about it.

Modelling conventions:
* `Instant` is a natural number (source: `std::time::Instant`); durations are
  naturals in the unit of the surrounding code (seconds for the cache TTL,
  milliseconds for retry delays).  `Instant::now()` is made explicit as a
  `now` parameter at each call site that reads the clock.
* The `HashMap` behind `Cache` is an association list; `insert` removes any
  previous binding of the key and prepends the new one, matching
  the replace semantics of `HashMap::insert`.
* Network I/O is an oracle parameter: `fetch_raw` consumes a function from
  attempt number to the outcome of that attempt, and the orchestrator functions
  take the observed outcome of the underlying `get_json` call as an argument.
* The retry loop of `fetch_raw` is written with explicit fuel so that it is
  structurally recursive and computable; `fetch_raw` supplies
  `max_retries + 1` fuel, which is proved sufficient
  (`fetch_raw_go_some_blocks`), so the `none` branch is unreachable.
-/

namespace HN

/-- Type `std::time::Instant`, as an abstract tick count. -/
abbrev Instant := Nat

/-- Struct `CacheEntry<T>` from `src/cache.rs`: a value together with its expiry. -/
structure CacheEntry (T : Type) where
  value : T
  expires_at : Instant
deriving Repr, DecidableEq

/-- Struct `Cache<T>` from `src/cache.rs`: a TTL cache.  The `HashMap` store is an
association list with at most one live binding per key (insert replaces). -/
structure Cache (T : Type) where
  store : List (String × CacheEntry T)
  ttl : Nat
deriving Repr, DecidableEq

namespace Cache

/-- Constructor `Cache::new(ttl_seconds)`. -/
def new (T : Type) (ttl_seconds : Nat) : Cache T :=
  { store := [], ttl := ttl_seconds }

/-- Lookup `store.get(key)` on the underlying map. -/
def find {T : Type} (c : Cache T) (key : String) : Option (CacheEntry T) :=
  (c.store.find? (fun p => p.1 == key)).map Prod.snd

/-- Method `Cache::get`: returns the value only if the entry exists and
`entry.expires_at > Instant::now()`; takes no locks in the model and returns
no updated state, mirroring the fact that the source reads through a read
lock and never mutates the store. -/
def get {T : Type} (c : Cache T) (key : String) (now : Instant) : Option T :=
  match c.find key with
  | some entry => if entry.expires_at > now then some entry.value else none
  | none => none

/-- Method `Cache::insert`: stores the value with `expires_at = now + ttl`,
replacing any existing binding of the key (HashMap insert semantics). -/
def insert {T : Type} (c : Cache T) (key : String) (value : T) (now : Instant) :
    Cache T :=
  { c with
    store := (key, ⟨value, now + c.ttl⟩) :: c.store.filter (fun p => p.1 != key) }

/-- Modelled from the spec: `Cache::get_stale` is called by
`ApiService::fetch_story_content` / `fetch_comment_content` in
`src/api/mod.rs` but its definition is not among the provided sources of
`src/cache.rs`.  Per the spec, it "returns the value regardless of expiry
(used only as a failure-recovery fallback, never as the primary read path)". -/
def get_stale {T : Type} (c : Cache T) (key : String) : Option T :=
  (c.find key).map CacheEntry.value

end Cache

/-- Struct `NetworkConfig` from `src/api/mod.rs`.  `rate_limit_per_second: f64` is
omitted: it is floating point and only sizes the semaphore pool, which no
claim inspects. -/
structure NetworkConfig where
  max_retries : Nat
  initial_retry_delay_ms : Nat
  max_retry_delay_ms : Nat
  retry_on_timeout : Bool
  concurrent_requests : Nat
deriving Repr, DecidableEq

/-- Value `NetworkConfig::default()`. -/
def NetworkConfig.default : NetworkConfig :=
  { max_retries := 3
    initial_retry_delay_ms := 500
    max_retry_delay_ms := 5000
    retry_on_timeout := true
    concurrent_requests := 10 }

/-- A `reqwest::Error` as far as `fetch_raw` inspects it: the two
classification predicates `is_timeout()` and `is_connect()`. -/
structure ReqwestError where
  is_timeout : Bool
  is_connect : Bool
deriving Repr, DecidableEq

/-- The outcome of one HTTP attempt inside `fetch_raw`, covering both the
`client.get(..).send().await` result and, when a response arrives, whether
`resp.text().await` succeeds. -/
inductive AttemptOutcome where
  /-- Send succeeded and the body text was read: `return Ok(Arc::new(text))`. -/
  | success (body : String)
  /-- Send succeeded but `resp.text().await` failed: the `?` after
  `.with_context(..)` returns the error immediately. -/
  | bodyError
  /-- Case where `send()` itself failed with the given `reqwest::Error`. -/
  | sendError (e : ReqwestError)
deriving Repr, DecidableEq

/-- Observable events of one `fetch_raw` run, for reasoning about the
rate-limiter permit and the backoff sleeps.  `acquire`/`release` are
the acquisition of the semaphore permit and its drop; `request` is the completion of
one `client.get(..).send().await`; `sleepEv d` is
`tokio::time::sleep(Duration::from_millis(d))`. -/
inductive Ev where
  | acquire
  | request
  | sleepEv (d : Nat)
  | release
deriving Repr, DecidableEq

/-- The result of a `fetch_raw` run: the returned value, the total number of
attempts made, the backoff delays slept in order, and the event trace. -/
structure FetchResult where
  result : Except String String
  attempts : Nat
  delays : List Nat
  events : List Ev
deriving Repr

/-- The failure classification of `fetch_raw` (`src/api/mod.rs:252-255`):
`(is_timeout && retry_on_timeout) || is_connect`. -/
def should_retry (cfg : NetworkConfig) (e : ReqwestError) : Bool :=
  (e.is_timeout && cfg.retry_on_timeout) || e.is_connect

/-- The retry loop of `fetch_raw`.  `oracle n` is the outcome of the `n`-th
attempt (1-based, matching the `attempt` counter of the source); `attempt` is the
number of attempts already made and `delay` the current backoff delay.  One
unit of fuel is consumed per loop iteration; `fetch_raw` passes enough fuel
that the `none` case is unreachable (`fetch_raw_go_some_blocks`).

Rust scoping detail embedded in the event traces: `_permit` is a local of the
loop body, so on the success and fatal paths it is dropped at the `return`
(after the request and the body read), while on the retry path it is dropped
at the end of the iteration — after `tokio::time::sleep`. -/
def fetch_raw_go (cfg : NetworkConfig) (oracle : Nat → AttemptOutcome) :
    Nat → Nat → Nat → Option FetchResult
  | 0, _, _ => none
  | _fuel + 1, attempt, delay =>
    let attempt' := attempt + 1
    match oracle attempt' with
    | .success body =>
      some { result := .ok body
             attempts := attempt'
             delays := []
             events := [.acquire, .request, .release] }
    | .bodyError =>
      some { result := .error "failed to get response text"
             attempts := attempt'
             delays := []
             events := [.acquire, .request, .release] }
    | .sendError e =>
      if should_retry cfg e = false ∨ cfg.max_retries < attempt' then
        some { result := .error "failed to send GET request"
               attempts := attempt'
               delays := []
               events := [.acquire, .request, .release] }
      else
        match fetch_raw_go cfg oracle _fuel attempt'
            (min (delay * 2) cfg.max_retry_delay_ms) with
        | some rest =>
          some { result := rest.result
                 attempts := rest.attempts
                 delays := delay :: rest.delays
                 events := [.acquire, .request, .sleepEv delay, .release]
                   ++ rest.events }
        | none => none

/-- Function `ApiService::fetch_raw`: starts with `attempt = 0` and
`delay = initial_retry_delay_ms`.  `max_retries + 1` fuel bounds the loop. -/
def fetch_raw (cfg : NetworkConfig) (oracle : Nat → AttemptOutcome) :
    Option FetchResult :=
  fetch_raw_go cfg oracle (cfg.max_retries + 1) 0 cfg.initial_retry_delay_ms

/-- The capped-doubling delay sequence actually produced by the loop:
`delaySeq max d n` lists the `n` backoff sleeps starting from delay `d`. -/
def delaySeq (maxDelay : Nat) : Nat → Nat → List Nat
  | _, 0 => []
  | d, n + 1 => d :: delaySeq maxDelay (min (d * 2) maxDelay) n

/-- Scans an event trace and reports whether a `sleepEv` ever occurs while
the rate-limiter permit is held (between an `acquire` and its `release`). -/
def sleepWhileHeld : List Ev → Bool → Bool
  | [], _ => false
  | .acquire :: rest, _ => sleepWhileHeld rest true
  | .release :: rest, _ => sleepWhileHeld rest false
  | .sleepEv _ :: rest, held => held || sleepWhileHeld rest held
  | .request :: rest, held => sleepWhileHeld rest held

/-- An event trace is a sequence of per-attempt blocks: each attempt acquires
a permit, completes its request, and releases the permit at the end of the
attempt — with the backoff sleep, when there is one, occurring before the
release. -/
def attemptBlocks : List Ev → Bool
  | [] => true
  | .acquire :: .request :: .release :: rest => attemptBlocks rest
  | .acquire :: .request :: .sleepEv _ :: .release :: rest => attemptBlocks rest
  | _ => false

-- Domain model ----------------------------------------------------------------

/-- Modelled from the spec: `internal::models::Story` is imported by
`src/api/mod.rs` but its definition is not among the provided sources.  Per
the spec it is a "plain immutable record deserialized from the wire format"
with "vectors of ids, optional strings/numbers"; the field set follows the
tests of the repository. -/
structure Story where
  id : Nat
  title : Option String
  -- the source field is `by`; `by` is a Lean keyword
  by_ : Option String
  score : Option Nat
  descendants : Option Nat
  time : Option Int
  kids : List Nat
deriving Repr, DecidableEq, Inhabited

/-- Modelled from the spec: `internal::models::Comment`, likewise absent from
the provided sources; a plain immutable record per the spec, fields per the
tests of the repository. -/
structure Comment where
  id : Nat
  -- the source field is `by`; `by` is a Lean keyword
  by_ : Option String
  text : Option String
  parent : Option Nat
  time : Option Int
  kids : List Nat
deriving Repr, DecidableEq, Inhabited

/-- Enum `StoryListType` from `src/api/mod.rs`. -/
inductive StoryListType where
  | best | top | new | ask | show | job
deriving Repr, DecidableEq

/-- Method `StoryListType::as_api_str`. -/
def StoryListType.as_api_str : StoryListType → String
  | .best => "beststories"
  | .top => "topstories"
  | .new => "newstories"
  | .ask => "askstories"
  | .show => "showstories"
  | .job => "jobstories"

/-- The cancellation token as the orchestrator observes it at a check point:
`none` for no token supplied, `some b` for a supplied token with
`is_cancelled() = b`. -/
abbrev TokenState := Option Bool

/-- Check `token.is_cancelled()` guarded by `if let Some(token) = &token`. -/
def tokenCancelled (token : TokenState) : Bool := token = some true

/-- Result of one orchestrator operation: the returned value, the number of
underlying `get_json` network operations started, and the cache afterwards. -/
structure OpResult (V T : Type) where
  result : Except String V
  networkCalls : Nat
  cache' : Cache T

/-- Function `ApiService::fetch_story_ids`.  `now` is the clock at the call;
`net` is the observed outcome of `get_json(url)` when that call is reached
(a mid-flight cancellation of the `tokio::select!` race is one of its
`error` cases).  Mirrors the order in the source: cache lookup first, then the
cancellation pre-check, then the network fetch, then `insert`. -/
def fetch_story_ids (cache : Cache (List Nat)) (now : Instant)
    (list_type : StoryListType) (token : TokenState)
    (net : Except String (List Nat)) : OpResult (List Nat) (List Nat) :=
  let cache_key := "story_ids_" ++ list_type.as_api_str
  match cache.get cache_key now with
  | some cached => ⟨.ok cached, 0, cache⟩
  | none =>
    if tokenCancelled token then
      ⟨.error "Request cancelled", 0, cache⟩
    else
      match net with
      | .ok ids => ⟨.ok ids, 1, cache.insert cache_key ids now⟩
      | .error e =>
        ⟨.error ("fetch_story_ids failed: " ++ e), 1, cache⟩

/-- Common body of `ApiService::fetch_story_content` and
`ApiService::fetch_comment_content` (the two are textually identical up to
names): fresh-cache lookup, then the network, then the stale-cache fallback
on network failure.  `keyKind` is `"story_"` or `"comment_"`; `net` is the
observed outcome of `get_json::<T>(url)` when that call is reached. -/
def fetch_item_content {T : Type} (keyKind : String) (opName : String)
    (cache : Cache T) (now : Instant) (id : Nat)
    (net : Except String T) : OpResult T T :=
  let cache_key := keyKind ++ toString id
  match cache.get cache_key now with
  | some cached => ⟨.ok cached, 0, cache⟩
  | none =>
    match net with
    | .ok v => ⟨.ok v, 1, cache.insert cache_key v now⟩
    | .error e =>
      match cache.get_stale cache_key with
      | some stale => ⟨.ok stale, 1, cache⟩
      | none =>
        ⟨.error (opName ++ " failed for id " ++ toString id ++ ": " ++ e), 1,
          cache⟩

/-- Function `ApiService::fetch_story_content`. -/
def fetch_story_content (cache : Cache Story) (now : Instant) (id : Nat)
    (net : Except String Story) : OpResult Story Story :=
  fetch_item_content "story_" "fetch_story_content" cache now id net

/-- Function `ApiService::fetch_comment_content`. -/
def fetch_comment_content (cache : Cache Comment) (now : Instant) (id : Nat)
    (net : Except String Comment) : OpResult Comment Comment :=
  fetch_item_content "comment_" "fetch_comment_content" cache now id net

/-- Result of a batch operation: the returned vector (note the type: there is
no error channel) and whether the fan-out stream was executed at all (false
exactly when the pre-check returned early, in which case no per-item fetch
and hence no network call happens). -/
structure BatchRun (T : Type) where
  items : List T
  streamRan : Bool

/-- The closure mapped over each id inside the batch fetchers: re-check the
token, then run the per-item fetch, whose observed outcome is `fetchRes`. -/
def batch_item {T : Type} (token : TokenState) (fetchRes : Except String T) :
    Except String T :=
  if tokenCancelled token then .error "Request cancelled" else fetchRes

/-- Common body of `ApiService::fetch_stories_concurrent` and
`ApiService::fetch_comments_concurrent` (textually identical up to types):
an early return of `Vec::new()` when the token is already cancelled,
otherwise a bounded fan-out over `ids` keeping only the `Ok` results.
`fetchOutcome id` is the observed outcome of the per-item
`fetch_story_content` / `fetch_comment_content` call.  `buffer_unordered`
collects results in completion order; the model normalises to submission
order, and only facts invariant under reordering (membership counts,
lengths) are claimed about it. -/
def fetch_concurrent {T : Type} (token : TokenState) (ids : List Nat)
    (fetchOutcome : Nat → Except String T) : BatchRun T :=
  if tokenCancelled token then ⟨[], false⟩
  else
    let results := ids.map (fun id => batch_item token (fetchOutcome id))
    ⟨results.filterMap (fun r => r.toOption), true⟩

/-- Function `ApiService::fetch_stories_concurrent`. -/
def fetch_stories_concurrent (token : TokenState) (ids : List Nat)
    (fetchOutcome : Nat → Except String Story) : BatchRun Story :=
  fetch_concurrent token ids fetchOutcome

/-- Function `ApiService::fetch_comments_concurrent`. -/
def fetch_comments_concurrent (token : TokenState) (ids : List Nat)
    (fetchOutcome : Nat → Except String Comment) : BatchRun Comment :=
  fetch_concurrent token ids fetchOutcome

/-- Count of successful outcomes among a list of per-item results. -/
def countOk {T : Type} (rs : List (Except String T)) : Nat :=
  (rs.filter (fun r => r.toOption.isSome)).length

-- Concrete instances used by witnesses and counterexamples ---------------------

/-- An oracle under which every attempt fails with a connection error. -/
def connFailOracle : Nat → AttemptOutcome :=
  fun _ => .sendError ⟨false, true⟩

/-- A configuration whose initial retry delay exceeds its delay cap. -/
def invCfg : NetworkConfig :=
  { max_retries := 1
    initial_retry_delay_ms := 3
    max_retry_delay_ms := 1
    retry_on_timeout := true
    concurrent_requests := 10 }

/-- A story-ids cache holding a fresh entry for the top-stories list,
inserted at time 0 with the service TTL of 300. -/
def warmIdsCache : Cache (List Nat) :=
  (Cache.new (List Nat) 300).insert "story_ids_topstories" [1, 2, 3] 0

/-- A sample story. -/
def storyDemo : Story :=
  { id := 1, title := some "t", by_ := some "u", score := some 1
    descendants := none, time := none, kids := [] }

/-- A sample comment. -/
def commentDemo : Comment :=
  { id := 2, by_ := some "u", text := some "c", parent := some 1
    time := none, kids := [] }

/-- Per-id story outcomes where only id 1 succeeds. -/
def storyOutcomeDemo : Nat → Except String Story :=
  fun id => if id = 1 then .ok storyDemo else .error "unreachable"

/-- Per-id comment outcomes where only id 2 succeeds. -/
def commentOutcomeDemo : Nat → Except String Comment :=
  fun id => if id = 2 then .ok commentDemo else .error "unreachable"

/-- Per-id story outcomes where every id fails. -/
def allFailStory : Nat → Except String Story :=
  fun _ => .error "unreachable"

end HN

namespace HN

-- Basic cache lemmas ---------------------------------------------------------

theorem Cache.find_insert_self {T : Type} (c : Cache T) (key : String) (v : T)
    (now : Instant) :
    (c.insert key v now).find key = some ⟨v, now + c.ttl⟩ := by
  simp [Cache.insert, Cache.find, List.find?]

theorem Cache.get_insert_self {T : Type} (c : Cache T) (key : String) (v : T)
    (now t : Instant) :
    (c.insert key v now).get key t =
      if now + c.ttl > t then some v else none := by
  simp [Cache.get, Cache.find_insert_self]

theorem Cache.get_stale_insert_self {T : Type} (c : Cache T) (key : String)
    (v : T) (now : Instant) :
    (c.insert key v now).get_stale key = some v := by
  simp [Cache.get_stale, Cache.find_insert_self]

theorem Cache.find_absent {T : Type} (c : Cache T) (key : String)
    (h : ∀ p ∈ c.store, p.1 ≠ key) : c.find key = none := by
  have : c.store.find? (fun p => p.1 == key) = none := by
    rw [List.find?_eq_none]
    intro p hp
    simpa using h p hp
  simp [Cache.find, this]

theorem Cache.get_absent {T : Type} (c : Cache T) (key : String) (now : Instant)
    (h : ∀ p ∈ c.store, p.1 ≠ key) : c.get key now = none := by
  simp [Cache.get, Cache.find_absent c key h]

-- Retry-loop lemmas -----------------------------------------------------------

theorem min_double_pow (d maxd i : Nat) :
    min (min (d * 2) maxd * 2 ^ i) maxd = min (d * 2 ^ (i + 1)) maxd := by
  have hpow : 1 ≤ 2 ^ i := Nat.one_le_two_pow
  rcases Nat.le_total (d * 2) maxd with h | h
  · rw [Nat.min_eq_left h]
    congr 1
    rw [pow_succ]
    ring
  · rw [Nat.min_eq_right h]
    have h1 : maxd ≤ maxd * 2 ^ i := by
      calc maxd = maxd * 1 := (Nat.mul_one maxd).symm
        _ ≤ maxd * 2 ^ i := Nat.mul_le_mul_left maxd hpow
    have h2 : maxd ≤ d * 2 ^ (i + 1) := by
      calc maxd ≤ d * 2 := h
        _ = d * 2 * 1 := (Nat.mul_one _).symm
        _ ≤ d * 2 * 2 ^ i := Nat.mul_le_mul_left _ hpow
        _ = d * 2 ^ (i + 1) := by rw [pow_succ]; ring
    rw [Nat.min_eq_right h1, Nat.min_eq_right h2]

theorem delaySeq_eq_range_map (maxd : Nat) :
    ∀ (n d : Nat), d ≤ maxd →
    delaySeq maxd d n = (List.range n).map (fun i => min (d * 2 ^ i) maxd) := by
  intro n
  induction n with
  | zero => intro d _; simp [delaySeq]
  | succ n ih =>
    intro d hd
    rw [delaySeq, ih (min (d * 2) maxd) (Nat.min_le_right _ _),
      List.range_succ_eq_map, List.map_cons, List.map_map]
    congr 1
    · simp [Nat.min_eq_left hd]
    · apply List.map_congr_left
      intro i _
      simpa [Function.comp] using min_double_pow d maxd i

theorem attemptBlocks_append_retry (d : Nat) (es : List Ev) :
    attemptBlocks ([.acquire, .request, .sleepEv d, .release] ++ es) =
      attemptBlocks es := by
  simp [attemptBlocks]

/-- Totality and permit-scoping shape of the retry loop: with the fuel
invariant of `fetch_raw` the loop always returns a result, and its event
trace is a sequence of per-attempt `acquire … release` blocks. -/
theorem fetch_raw_go_some_blocks (cfg : NetworkConfig)
    (oracle : Nat → AttemptOutcome) :
    ∀ (fuel attempt delay : Nat),
      attempt + fuel = cfg.max_retries + 1 → attempt ≤ cfg.max_retries →
      ∃ r, fetch_raw_go cfg oracle fuel attempt delay = some r
        ∧ attemptBlocks r.events = true := by
  intro fuel
  induction fuel with
  | zero =>
    intro attempt delay h1 h2
    exact absurd h1 (by omega)
  | succ fuel ih =>
    intro attempt delay h1 h2
    cases horacle : oracle (attempt + 1) with
    | success body =>
      refine ⟨⟨.ok body, attempt + 1, [], [.acquire, .request, .release]⟩,
        ?_, by simp [attemptBlocks]⟩
      simp only [fetch_raw_go, horacle]
    | bodyError =>
      refine ⟨⟨.error "failed to get response text", attempt + 1, [],
        [.acquire, .request, .release]⟩, ?_, by simp [attemptBlocks]⟩
      simp only [fetch_raw_go, horacle]
    | sendError e =>
      by_cases hcond : should_retry cfg e = false ∨ cfg.max_retries < attempt + 1
      · refine ⟨⟨.error "failed to send GET request", attempt + 1, [],
          [.acquire, .request, .release]⟩, ?_, by simp [attemptBlocks]⟩
        simp only [fetch_raw_go, horacle]
        rw [if_pos hcond]
      · have hle : attempt + 1 ≤ cfg.max_retries := by
          rcases not_or.mp hcond with ⟨-, hb⟩
          omega
        obtain ⟨rest, hrest, hblocks⟩ :=
          ih (attempt + 1) (min (delay * 2) cfg.max_retry_delay_ms)
            (by omega) hle
        refine ⟨⟨rest.result, rest.attempts, delay :: rest.delays,
          [.acquire, .request, .sleepEv delay, .release] ++ rest.events⟩,
          ?_, by rw [attemptBlocks_append_retry]; exact hblocks⟩
        simp only [fetch_raw_go, horacle]
        rw [if_neg hcond, hrest]

/-- Characterisation of a `fetch_raw_go` run in which every attempt fails
with a connection error: it consumes all retries, sleeps the capped-doubling
delay sequence, and surfaces the final failure. -/
theorem fetch_raw_go_connect_fail (cfg : NetworkConfig)
    (oracle : Nat → AttemptOutcome)
    (hconn : ∀ n, ∃ e, oracle n = .sendError e ∧ e.is_connect = true) :
    ∀ (fuel attempt delay : Nat),
      attempt + fuel = cfg.max_retries + 1 → attempt ≤ cfg.max_retries →
      ∃ r, fetch_raw_go cfg oracle fuel attempt delay = some r
        ∧ r.attempts = cfg.max_retries + 1
        ∧ r.delays = delaySeq cfg.max_retry_delay_ms delay
            (cfg.max_retries - attempt)
        ∧ r.result = Except.error "failed to send GET request" := by
  intro fuel
  induction fuel with
  | zero =>
    intro attempt delay h1 h2
    exact absurd h1 (by omega)
  | succ fuel ih =>
    intro attempt delay h1 h2
    obtain ⟨e, he, hc⟩ := hconn (attempt + 1)
    have hretry : should_retry cfg e = true := by
      simp [should_retry, hc]
    by_cases hlast : cfg.max_retries < attempt + 1
    · have hat : attempt = cfg.max_retries := by omega
      have heq : fetch_raw_go cfg oracle (fuel + 1) attempt delay =
          some ⟨.error "failed to send GET request", attempt + 1, [],
            [.acquire, .request, .release]⟩ := by
        simp only [fetch_raw_go, he]
        rw [if_pos (Or.inr hlast)]
      refine ⟨_, heq, ?_, ?_, rfl⟩
      · simp [hat]
      · simp [hat, delaySeq]
    · have hcond :
          ¬(should_retry cfg e = false ∨ cfg.max_retries < attempt + 1) := by
        rw [not_or]
        exact ⟨by simp [hretry], hlast⟩
      obtain ⟨rest, hrest, ha, hd, hr⟩ :=
        ih (attempt + 1) (min (delay * 2) cfg.max_retry_delay_ms)
          (by omega) (by omega)
      have heq : fetch_raw_go cfg oracle (fuel + 1) attempt delay =
          some ⟨rest.result, rest.attempts, delay :: rest.delays,
            [.acquire, .request, .sleepEv delay, .release] ++ rest.events⟩ := by
        simp only [fetch_raw_go, he]
        rw [if_neg hcond, hrest]
      refine ⟨_, heq, ha, ?_, hr⟩
      have hsplit : cfg.max_retries - attempt =
          (cfg.max_retries - (attempt + 1)) + 1 := by omega
      rw [hsplit, delaySeq, hd]

theorem length_filterMap_toOption {T : Type} (rs : List (Except String T)) :
    (rs.filterMap (fun r => r.toOption)).length = countOk rs := by
  induction rs with
  | nil => simp [countOk]
  | cons r rest ih =>
    cases r with
    | ok v => simpa [countOk, List.filterMap_cons, Except.toOption] using ih
    | error e => simpa [countOk, List.filterMap_cons, Except.toOption] using ih

-- Claim theorems --------------------------------------------------------------

/-- C1: the cache offers a `get_stale` operation returning the stored value
regardless of expiry, and when a previously cached story or comment misses
the fresh cache on a later fetch (its entry expired: `t + ttl ≤ now`) and
the network fetch fails, `fetch_story_content` / `fetch_comment_content`
return the previously cached value instead of propagating the error.
`Cache::get_stale` itself is modelled from the spec (see `Cache.get_stale`);
the fallback control flow is from `src/api/mod.rs`. -/
theorem stale_fallback_returns_cached :
    (∀ (T : Type) (c : Cache T) (key : String) (v : T) (t : Instant),
      (c.insert key v t).get_stale key = some v)
  ∧ (∀ (cs : Cache Story) (id : Nat) (s : Story) (t now : Instant)
        (e : String),
      t + cs.ttl ≤ now →
      (fetch_story_content (cs.insert ("story_" ++ toString id) s t) now id
        (.error e)).result = .ok s)
  ∧ (∀ (cc : Cache Comment) (id : Nat) (cm : Comment) (t now : Instant)
        (e : String),
      t + cc.ttl ≤ now →
      (fetch_comment_content (cc.insert ("comment_" ++ toString id) cm t) now
        id (.error e)).result = .ok cm) := by
  refine ⟨fun T c key v t => Cache.get_stale_insert_self c key v t, ?_, ?_⟩
  · intro cs id s t now e h
    have hmiss : (cs.insert ("story_" ++ toString id) s t).get
        ("story_" ++ toString id) now = none := by
      have hexp : ¬ (t + cs.ttl > now) := Nat.not_lt.mpr h
      rw [Cache.get_insert_self]
      exact if_neg hexp
    simp [fetch_story_content, fetch_item_content, hmiss,
      Cache.get_stale_insert_self]
  · intro cc id cm t now e h
    have hmiss : (cc.insert ("comment_" ++ toString id) cm t).get
        ("comment_" ++ toString id) now = none := by
      have hexp : ¬ (t + cc.ttl > now) := Nat.not_lt.mpr h
      rw [Cache.get_insert_self]
      exact if_neg hexp
    simp [fetch_comment_content, fetch_item_content, hmiss,
      Cache.get_stale_insert_self]

theorem stale_fallback_returns_cached_witness :
    ((Cache.new Nat 300).insert "k" 7 0).get_stale "k" = some 7
  ∧ (fetch_story_content
      ((Cache.new Story 300).insert ("story_" ++ toString 1) storyDemo 0)
      300 1 (.error "net down")).result = .ok storyDemo
  ∧ (fetch_comment_content
      ((Cache.new Comment 300).insert ("comment_" ++ toString 2) commentDemo 0)
      300 2 (.error "net down")).result = .ok commentDemo :=
  ⟨stale_fallback_returns_cached.1 Nat (Cache.new Nat 300) "k" 7 0,
   stale_fallback_returns_cached.2.1 (Cache.new Story 300) 1 storyDemo 0 300
     "net down" (by decide),
   stale_fallback_returns_cached.2.2 (Cache.new Comment 300) 2 commentDemo 0
     300 "net down" (by decide)⟩

/-- C2 counterexample: for the configuration `invCfg` with
`initial_retry_delay_ms = 3 > 1 = max_retry_delay_ms` and every attempt
failing with a connection error, the single backoff sleep is the uncapped
initial delay `3`, while the claimed formula `min(initial * 2^i, max)`
yields `1` for `i = 0` — the claimed delay formula does not hold for every
configuration. -/
theorem retry_delay_formula_cex :
    (fetch_raw invCfg connFailOracle).map FetchResult.delays = some [3]
  ∧ (fetch_raw invCfg connFailOracle).map FetchResult.delays ≠
      some ((List.range invCfg.max_retries).map
        (fun i => min (invCfg.initial_retry_delay_ms * 2 ^ i)
          invCfg.max_retry_delay_ms)) := by
  refine ⟨rfl, ?_⟩
  decide

/-- C2 (amended): for a URL whose GET fails with a connection error on every
attempt, `fetch_raw` makes exactly `max_retries + 1` total attempts and then
surfaces a fatal error; provided `initial_retry_delay_ms ≤
max_retry_delay_ms`, the delay slept before attempt `i+1` equals
`min(initial_retry_delay * 2^i, max_retry_delay)` with `i` counted from the
first attempt being attempt 0.  Without that proviso the first sleep is the
uncapped initial delay (`retry_delay_formula_cex`). -/
theorem retry_backoff_attempts_delays (cfg : NetworkConfig)
    (oracle : Nat → AttemptOutcome)
    (hconn : ∀ n, ∃ e, oracle n = .sendError e ∧ e.is_connect = true)
    (hinit : cfg.initial_retry_delay_ms ≤ cfg.max_retry_delay_ms) :
    ∃ r, fetch_raw cfg oracle = some r
      ∧ r.attempts = cfg.max_retries + 1
      ∧ r.result = Except.error "failed to send GET request"
      ∧ r.delays = (List.range cfg.max_retries).map
          (fun i => min (cfg.initial_retry_delay_ms * 2 ^ i)
            cfg.max_retry_delay_ms) := by
  unfold fetch_raw
  obtain ⟨r, hr, ha, hd, hres⟩ :=
    fetch_raw_go_connect_fail cfg oracle hconn (cfg.max_retries + 1) 0
      cfg.initial_retry_delay_ms (by omega) (by omega)
  refine ⟨r, hr, ha, hres, ?_⟩
  rw [hd, Nat.sub_zero, delaySeq_eq_range_map _ _ _ hinit]

theorem retry_backoff_attempts_delays_witness :
    ∃ r, fetch_raw NetworkConfig.default connFailOracle = some r
      ∧ r.attempts = NetworkConfig.default.max_retries + 1
      ∧ r.result = Except.error "failed to send GET request"
      ∧ r.delays = (List.range NetworkConfig.default.max_retries).map
          (fun i => min (NetworkConfig.default.initial_retry_delay_ms * 2 ^ i)
            NetworkConfig.default.max_retry_delay_ms) :=
  retry_backoff_attempts_delays NetworkConfig.default connFailOracle
    (fun _ => ⟨⟨false, true⟩, rfl, rfl⟩) (by decide)

/-- C3: a value inserted at time `t` into a cache with TTL `d` is returned
by `Cache::get` at any read time strictly before `t + d` and not at or
after `t + d`; an absent key yields `none`; and `Cache::insert` stores the
entry with `expires_at = t + d`, overwriting any prior entry of the key
unconditionally (the prior cache contents `c` are arbitrary).  `Cache.get`
returns no state at all in this embedding, mirroring that the source method
only reads under a read lock and never mutates the store. -/
theorem cache_ttl_contract :
    (∀ (T : Type) (c : Cache T) (key : String) (v : T) (t tr : Instant),
      (tr < t + c.ttl → (c.insert key v t).get key tr = some v)
      ∧ (t + c.ttl ≤ tr → (c.insert key v t).get key tr = none)
      ∧ (c.insert key v t).find key = some ⟨v, t + c.ttl⟩)
  ∧ (∀ (T : Type) (c : Cache T) (key : String) (now : Instant),
      (∀ p ∈ c.store, p.1 ≠ key) → c.get key now = none) := by
  constructor
  · intro T c key v t tr
    refine ⟨?_, ?_, Cache.find_insert_self c key v t⟩
    · intro h
      rw [Cache.get_insert_self]
      exact if_pos h
    · intro h
      have hexp : ¬ (t + c.ttl > tr) := Nat.not_lt.mpr h
      rw [Cache.get_insert_self]
      exact if_neg hexp
  · intro T c key now h
    exact Cache.get_absent c key now h

theorem cache_ttl_contract_witness :
    ((Cache.new Nat 300).insert "k" 7 10).get "k" 100 = some 7
  ∧ ((Cache.new Nat 300).insert "k" 7 10).get "k" 310 = none
  ∧ ((Cache.new Nat 300).insert "k" 7 10).find "k" = some ⟨7, 310⟩
  ∧ (Cache.new Nat 300).get "q" 0 = none :=
  ⟨(cache_ttl_contract.1 Nat (Cache.new Nat 300) "k" 7 10 100).1 (by decide),
   (cache_ttl_contract.1 Nat (Cache.new Nat 300) "k" 7 10 310).2.1 (by decide),
   (cache_ttl_contract.1 Nat (Cache.new Nat 300) "k" 7 10 310).2.2,
   cache_ttl_contract.2 Nat (Cache.new Nat 300) "q" 0 (by simp [Cache.new])⟩

/-- C5: in the failure classification of `fetch_raw`, a timeout error is
retryable iff `retry_on_timeout` is true, a connection-establishment failure
is always retryable, and every other failure — a non-timeout/non-connect
send error, or a response-body read error — is fatal and surfaced
immediately after a single attempt, with no retry and no backoff sleep. -/
theorem failure_classification :
    (∀ (cfg : NetworkConfig) (e : ReqwestError),
      e.is_connect = true → should_retry cfg e = true)
  ∧ (∀ (cfg : NetworkConfig) (e : ReqwestError),
      e.is_timeout = true → e.is_connect = false →
      should_retry cfg e = cfg.retry_on_timeout)
  ∧ (∀ (cfg : NetworkConfig) (e : ReqwestError),
      e.is_timeout = false → e.is_connect = false →
      should_retry cfg e = false)
  ∧ (∀ (cfg : NetworkConfig) (oracle : Nat → AttemptOutcome)
        (e : ReqwestError),
      oracle 1 = .sendError e → should_retry cfg e = false →
      fetch_raw cfg oracle = some ⟨.error "failed to send GET request", 1,
        [], [.acquire, .request, .release]⟩)
  ∧ (∀ (cfg : NetworkConfig) (oracle : Nat → AttemptOutcome),
      oracle 1 = .bodyError →
      fetch_raw cfg oracle = some ⟨.error "failed to get response text", 1,
        [], [.acquire, .request, .release]⟩) := by
  refine ⟨?_, ?_, ?_, ?_, ?_⟩
  · intro cfg e h
    simp [should_retry, h]
  · intro cfg e ht hc
    simp [should_retry, ht, hc]
  · intro cfg e ht hc
    simp [should_retry, ht, hc]
  · intro cfg oracle e ho hsr
    have ho' : oracle (0 + 1) = AttemptOutcome.sendError e := ho
    unfold fetch_raw
    simp only [fetch_raw_go, ho']
    rw [if_pos (Or.inl hsr)]
  · intro cfg oracle ho
    have ho' : oracle (0 + 1) = AttemptOutcome.bodyError := ho
    unfold fetch_raw
    simp only [fetch_raw_go, ho']

theorem failure_classification_witness :
    should_retry NetworkConfig.default ⟨false, true⟩ = true
  ∧ should_retry NetworkConfig.default ⟨true, false⟩ =
      NetworkConfig.default.retry_on_timeout
  ∧ should_retry NetworkConfig.default ⟨false, false⟩ = false
  ∧ fetch_raw NetworkConfig.default (fun _ => .sendError ⟨false, false⟩) =
      some ⟨.error "failed to send GET request", 1, [],
        [.acquire, .request, .release]⟩
  ∧ fetch_raw NetworkConfig.default (fun _ => .bodyError) =
      some ⟨.error "failed to get response text", 1, [],
        [.acquire, .request, .release]⟩ :=
  ⟨failure_classification.1 NetworkConfig.default ⟨false, true⟩ rfl,
   failure_classification.2.1 NetworkConfig.default ⟨true, false⟩ rfl rfl,
   failure_classification.2.2.1 NetworkConfig.default ⟨false, false⟩ rfl rfl,
   failure_classification.2.2.2.1 NetworkConfig.default _ ⟨false, false⟩
     rfl rfl,
   failure_classification.2.2.2.2 NetworkConfig.default _ rfl⟩

/-- C6 counterexample: with the top-stories id list fresh in the cache
(`warmIdsCache`) and an already-cancelled token, `fetch_story_ids` returns
the cached ids successfully rather than failing with a cancellation error —
the cache lookup precedes the cancellation check. -/
theorem cancelled_warm_cache_cex :
    (fetch_story_ids warmIdsCache 10 .top (some true) (.error "x")).result
        = .ok [1, 2, 3]
  ∧ (fetch_story_ids warmIdsCache 10 .top (some true) (.error "x")).result
        ≠ .error "Request cancelled" := by
  refine ⟨rfl, ?_⟩
  intro h
  rw [show (fetch_story_ids warmIdsCache 10 .top (some true)
      (.error "x")).result = Except.ok [1, 2, 3] from rfl] at h
  exact Except.noConfusion h

/-- C6 (amended): if the supplied cancellation token is already triggered
before a `fetch_story_ids` call AND the requested id list is not fresh in
the cache, the call fails with a cancellation error and starts no network
operation.  (On a warm cache the cached ids are returned instead, see
`cancelled_warm_cache_cex` and C9.) -/
theorem cancelled_cold_cache_errors (cache : Cache (List Nat)) (now : Instant)
    (lt : StoryListType) (net : Except String (List Nat))
    (hmiss : cache.get ("story_ids_" ++ lt.as_api_str) now = none) :
    fetch_story_ids cache now lt (some true) net =
      ⟨Except.error "Request cancelled", 0, cache⟩ := by
  simp [fetch_story_ids, hmiss, tokenCancelled]

theorem cancelled_cold_cache_errors_witness :
    fetch_story_ids (Cache.new (List Nat) 300) 0 .top (some true)
        (.ok [9]) =
      ⟨Except.error "Request cancelled", 0, Cache.new (List Nat) 300⟩ :=
  cancelled_cold_cache_errors (Cache.new (List Nat) 300) 0 .top (.ok [9]) rfl

/-- C7: a batch fetch of stories or comments returns exactly the successful
per-item results: the length of the returned vector equals the number of
ids whose individual fetch succeeded, per-item failures are silently
dropped, and the batch returns a plain vector (`BatchRun.items`), so the
batch operation itself has no error channel at all. -/
theorem batch_partial_success (token : TokenState) (ids : List Nat)
    (so : Nat → Except String Story) (co : Nat → Except String Comment)
    (h : tokenCancelled token = false) :
    (fetch_stories_concurrent token ids so).items.length =
      countOk (ids.map so)
  ∧ (fetch_comments_concurrent token ids co).items.length =
      countOk (ids.map co) := by
  have hnot : ¬ (tokenCancelled token = true) := by simp [h]
  have hbi : ∀ (T : Type) (r : Except String T),
      batch_item token r = r := by
    intro T r
    simp [batch_item, h]
  constructor
  · simp only [fetch_stories_concurrent, fetch_concurrent, if_neg hnot]
    simp only [hbi]
    exact length_filterMap_toOption (ids.map so)
  · simp only [fetch_comments_concurrent, fetch_concurrent, if_neg hnot]
    simp only [hbi]
    exact length_filterMap_toOption (ids.map co)

theorem batch_partial_success_witness :
    (fetch_stories_concurrent none [1, 2] storyOutcomeDemo).items.length =
      countOk ([1, 2].map storyOutcomeDemo)
  ∧ (fetch_comments_concurrent none [1, 2] commentOutcomeDemo).items.length =
      countOk ([1, 2].map commentOutcomeDemo) :=
  batch_partial_success none [1, 2] storyOutcomeDemo commentOutcomeDemo rfl

/-- C8 counterexample: with the default configuration and every attempt
failing with a connection error, the `fetch_raw` event trace contains a
backoff sleep strictly between a permit acquisition and the corresponding
release: `_permit` is a local of the loop body and is dropped only at the
end of the iteration, after `tokio::time::sleep`, so a permit IS held
during the inter-attempt backoff sleep. -/
theorem permit_held_during_sleep_cex :
    sleepWhileHeld
      (((fetch_raw NetworkConfig.default connFailOracle).map
        FetchResult.events).getD []) false = true := by
  decide

/-- C8 (amended): every attempt of `fetch_raw` acquires one rate-limiter
permit before issuing its request and releases it by the end of that
attempt on every exit path; on the retry path the release occurs only after
the backoff sleep, so the permit is held during the inter-attempt sleep.
Formally: every run returns a result, and its event trace is a sequence of
per-attempt `acquire, request, (sleep), release` blocks. -/
theorem permit_scoped_per_attempt (cfg : NetworkConfig)
    (oracle : Nat → AttemptOutcome) :
    (fetch_raw cfg oracle).isSome = true
  ∧ attemptBlocks
      (((fetch_raw cfg oracle).map FetchResult.events).getD []) = true := by
  obtain ⟨r, hr, hblocks⟩ :=
    fetch_raw_go_some_blocks cfg oracle (cfg.max_retries + 1) 0
      cfg.initial_retry_delay_ms (by omega) (by omega)
  unfold fetch_raw
  rw [hr]
  exact ⟨rfl, hblocks⟩

/-- C9: whenever the requested id list is fresh in the story-ids cache,
`fetch_story_ids` returns the cached ids with no network call, regardless
of the state of the supplied cancellation token — the cache lookup is
performed before the cancellation check, so an already-triggered token does
not produce a cancellation error on a warm cache. -/
theorem warm_cache_ignores_token (cache : Cache (List Nat)) (now : Instant)
    (lt : StoryListType) (token : TokenState) (net : Except String (List Nat))
    (ids : List Nat)
    (hhit : cache.get ("story_ids_" ++ lt.as_api_str) now = some ids) :
    fetch_story_ids cache now lt token net = ⟨Except.ok ids, 0, cache⟩ := by
  simp [fetch_story_ids, hhit]

theorem warm_cache_ignores_token_witness :
    fetch_story_ids warmIdsCache 10 .top (some true) (.error "x") =
      ⟨Except.ok [1, 2, 3], 0, warmIdsCache⟩ :=
  warm_cache_ignores_token warmIdsCache 10 .top (some true) (.error "x")
    [1, 2, 3] rfl

/-- C10: if the supplied cancellation token is already triggered before
`fetch_stories_concurrent` / `fetch_comments_concurrent` starts, the
operation returns the empty vector without running the fan-out stream
(hence no per-item fetch and no network call); and a non-cancelled batch in
which every item fails also returns the empty vector, so a caller cannot
distinguish the two outcomes from the returned value. -/
theorem batch_precancel_empty (ids : List Nat)
    (so : Nat → Except String Story) (co : Nat → Except String Comment)
    (hfail : ∀ id ∈ ids, (so id).toOption = none) :
    fetch_stories_concurrent (some true) ids so = ⟨[], false⟩
  ∧ fetch_comments_concurrent (some true) ids co = ⟨[], false⟩
  ∧ (fetch_stories_concurrent none ids so).items =
      (fetch_stories_concurrent (some true) ids so).items := by
  refine ⟨rfl, rfl, ?_⟩
  rw [show (fetch_stories_concurrent (some true) ids so).items = [] from rfl]
  rw [show (fetch_stories_concurrent none ids so).items =
      (ids.map (fun id => batch_item none (so id))).filterMap
        (fun r => r.toOption) from rfl]
  rw [List.filterMap_eq_nil_iff]
  intro r hr
  obtain ⟨id, hid, hrid⟩ := List.mem_map.mp hr
  rw [← hrid]
  simpa [batch_item, tokenCancelled] using hfail id hid

theorem batch_precancel_empty_witness :
    fetch_stories_concurrent (some true) [1] allFailStory = ⟨[], false⟩
  ∧ fetch_comments_concurrent (some true) [1] commentOutcomeDemo =
      ⟨[], false⟩
  ∧ (fetch_stories_concurrent none [1] allFailStory).items =
      (fetch_stories_concurrent (some true) [1] allFailStory).items :=
  batch_precancel_empty [1] allFailStory commentOutcomeDemo
    (fun _ _ => rfl)

end HN
